import Mathlib

/-!
Verification of the asking-orchestration service of the SmartBI repository
(`src/wren-ui/src/apollo/server/services/askingService.ts`).

The development shallowly embeds:
* `constructCteSql` — the pure SQL step composer;
* the `BackgroundTracker` per-entry polling unit, its tick and its task map;
* a small-step interleaving model of the per-entry units and the
  `runningJobs` in-flight guard;
* the service operations `createThread`, `updateThread` and
  `generateThreadRecommendationQuestions`, with their collaborators
  (repositories, AI adaptor) modelled as explicit environment records and
  their externally visible writes/calls as an explicit effect trace.
-/

/-- One SQL step of a thread response detail: a CTE name, a human-readable
summary, and the SQL text. -/
structure Step where
  cteName : String
  summary : String
  sql : String
deriving DecidableEq, Repr

/-- Body of the `forEach` loop in `constructCteSql`: the text appended for the
step at position `index` of a sliced list of `n` steps. The last step is
emitted unwrapped; the second-to-last is wrapped as a CTE without a trailing
comma; every earlier step is wrapped as a CTE with a trailing comma. -/
def stepChunk (n : Nat) (index : Nat) (step : Step) : String :=
  if index = n - 1 then
    "\n-- " ++ step.summary ++ "\n" ++ step.sql
  else if index = n - 2 then
    step.cteName ++ " AS" ++ "\n-- " ++ step.summary ++ "\n" ++ "(" ++ step.sql ++ ")"
  else
    step.cteName ++ " AS" ++ "\n-- " ++ step.summary ++ "\n" ++ "(" ++ step.sql ++ "),"

/-- The body of `constructCteSql` after slicing: if there is only one step,
return its summary comment and SQL directly; otherwise build the `WITH`
clause by folding the step chunks over the enumerated steps, mirroring the
`forEach` accumulation into the mutable `sql` variable. -/
def buildCte (slicedSteps : List Step) : String :=
  if slicedSteps.length = 1 then
    "-- " ++ (slicedSteps.headD ⟨"", "", ""⟩).summary ++ "\n"
      ++ (slicedSteps.headD ⟨"", "", ""⟩).sql
  else
    slicedSteps.enum.foldl
      (fun sql p => sql ++ stepChunk slicedSteps.length p.1 p.2) "WITH "

/-- Embedding of `constructCteSql(steps, stepIndex?)`. A thrown `Error`
becomes `Except.error` carrying the message. `stepIndex` is validated to lie
in `[0, steps.length - 1]` when present; the steps are then sliced to
`steps.slice(0, stepIndex + 1)` and composed by `buildCte`. -/
def constructCteSql (steps : List Step) (stepIndex : Option Int) :
    Except String String :=
  match stepIndex with
  | some i =>
      if i < 0 ∨ (steps.length : Int) ≤ i then
        Except.error ("Invalid stepIndex: " ++ toString i)
      else
        Except.ok (buildCte (steps.take (i.toNat + 1)))
  | none => Except.ok (buildCte steps)

/-- The shape the spec ascribes to the wrapped (non-final) steps of a
multi-step composition: each binding is `<cteName> AS`, a comment line with
the summary, and the parenthesised SQL; consecutive bindings are separated by
a comma, and the last binding carries no trailing comma. One binding is
produced per list element. -/
def cteBindings : List Step → String
  | [] => ""
  | [s] => s.cteName ++ " AS" ++ "\n-- " ++ s.summary ++ "\n" ++ "(" ++ s.sql ++ ")"
  | s :: rest =>
      (s.cteName ++ " AS" ++ "\n-- " ++ s.summary ++ "\n" ++ "(" ++ s.sql ++ "),")
        ++ cteBindings rest

/-- The unwrapped final segment of a multi-step composition: a comment line
with the final step's summary followed by its raw SQL. -/
def finalSegment (s : Step) : String :=
  "\n-- " ++ s.summary ++ "\n" ++ s.sql

/-- C1. The claim asserts that on the two-step input the composed SQL
contains a comma after the wrapped first step, i.e. equals
`WITH a AS\n-- s1\n(SELECT 1),\n-- s2\nSELECT 2`. It does not: the
second-to-last branch of the loop deliberately omits the trailing comma, so
the wrapped step is followed directly by the final comment line. -/
theorem constructCteSql_two_step_claimed_comma_false :
    constructCteSql
      [⟨"a", "s1", "SELECT 1"⟩, ⟨"b", "s2", "SELECT 2"⟩] none
      ≠ Except.ok "WITH a AS\n-- s1\n(SELECT 1),\n-- s2\nSELECT 2" := by
  intro h
  exact absurd (Except.ok.inj h) (by decide)

/-- C1 (amended). On the two-step input with no cutoff, `constructCteSql`
returns exactly `WITH a AS\n-- s1\n(SELECT 1)\n-- s2\nSELECT 2`: the single
wrapped step, being the last CTE binding, is not followed by a comma. -/
theorem constructCteSql_two_step_exact :
    constructCteSql
      [⟨"a", "s1", "SELECT 1"⟩, ⟨"b", "s2", "SELECT 2"⟩] none
      = Except.ok "WITH a AS\n-- s1\n(SELECT 1)\n-- s2\nSELECT 2" := rfl

/-- C6. For every steps array of length at least 1 and every cutoff index
outside `[0, steps.length - 1]`, `constructCteSql` reports an input error
rather than returning a SQL string. -/
theorem constructCteSql_invalid_stepIndex (steps : List Step) (i : Int)
    (hlen : 1 ≤ steps.length) (hout : i < 0 ∨ (steps.length : Int) ≤ i) :
    constructCteSql steps (some i)
      = Except.error ("Invalid stepIndex: " ++ toString i) := by
  simp only [constructCteSql]
  rw [if_pos hout]

/-- Concatenation of the step chunks of an enumerated step list, in order;
the normal form of the `forEach` fold in `buildCte`. -/
def joinChunks (n : Nat) : List (Nat × Step) → String
  | [] => ""
  | p :: rest => stepChunk n p.1 p.2 ++ joinChunks n rest

theorem foldl_stepChunk (n : Nat) :
    ∀ (l : List (Nat × Step)) (a : String),
      l.foldl (fun sql p => sql ++ stepChunk n p.1 p.2) a = a ++ joinChunks n l := by
  intro l
  induction l with
  | nil => intro a; simp [joinChunks, String.append_empty]
  | cons p rest ih =>
      intro a
      simp only [List.foldl_cons, joinChunks]
      rw [ih, String.append_assoc]

theorem joinChunks_append (n : Nat) (l l' : List (Nat × Step)) :
    joinChunks n (l ++ l') = joinChunks n l ++ joinChunks n l' := by
  induction l with
  | nil => simp [joinChunks]
  | cons p rest ih =>
      simp only [List.cons_append, joinChunks, List.append_eq]
      rw [ih, String.append_assoc]

theorem joinChunks_enumFrom (n : Nat) :
    ∀ (init : List Step) (k : Nat), init ≠ [] → k + init.length + 1 = n →
      joinChunks n (List.enumFrom k init) = cteBindings init := by
  intro init
  induction init with
  | nil => intro k h _; exact absurd rfl h
  | cons s rest ih =>
      intro k _ hk
      cases rest with
      | nil =>
          simp only [List.enumFrom, joinChunks, cteBindings]
          rw [stepChunk, if_neg (by simp at hk; omega), if_pos (by simp at hk; omega)]
          exact String.append_empty _
      | cons s' rest' =>
          rw [List.enumFrom_cons, joinChunks]
          rw [show cteBindings (s :: s' :: rest')
                = (s.cteName ++ " AS" ++ "\n-- " ++ s.summary ++ "\n" ++ "("
                    ++ s.sql ++ "),") ++ cteBindings (s' :: rest') from rfl]
          rw [stepChunk, if_neg (by simp at hk; omega), if_neg (by simp at hk; omega)]
          rw [ih (k + 1) (by simp) (by simp at hk ⊢; omega)]

/-- C7. Structure of the composed SQL. After applying the cutoff (part 3: a
valid cutoff index composes exactly the sliced prefix, part 4: no cutoff
composes all steps), a list of at least two steps (written `init ++ [last]`
with `init` nonempty) yields `WITH` followed by exactly one CTE binding per
non-final step (`cteBindings init`, one binding per element of `init`) and
the final step's SQL unwrapped (`finalSegment`); a single remaining step
yields a comment line with its summary followed by the raw SQL, with no
`WITH` clause. -/
theorem constructCteSql_shape (init : List Step) (last s : Step)
    (hinit : init ≠ []) :
    constructCteSql (init ++ [last]) none
      = Except.ok ("WITH " ++ (cteBindings init ++ finalSegment last))
    ∧ constructCteSql [s] none
      = Except.ok ("-- " ++ s.summary ++ "\n" ++ s.sql)
    ∧ (∀ (steps : List Step) (i : Int), 0 ≤ i → i < (steps.length : Int) →
        constructCteSql steps (some i)
          = Except.ok (buildCte (steps.take (i.toNat + 1))))
    ∧ (∀ steps : List Step, constructCteSql steps none
          = Except.ok (buildCte steps)) := by
  refine ⟨?_, rfl, ?_, fun _ => rfl⟩
  · have hlen : (init ++ [last]).length = init.length + 1 := by simp
    have hne : (init ++ [last]).length ≠ 1 := by
      simp only [hlen]
      have : init.length ≠ 0 := fun h => hinit (List.length_eq_zero.mp h)
      omega
    simp only [constructCteSql, buildCte, if_neg hne]
    rw [show (init ++ [last]).enum = List.enumFrom 0 (init ++ [last]) from rfl]
    rw [List.enumFrom_append]
    rw [foldl_stepChunk]
    rw [joinChunks_append]
    rw [joinChunks_enumFrom ((init ++ [last]).length) init 0 hinit (by simp)]
    simp only [List.enumFrom, joinChunks]
    rw [stepChunk, if_pos (by simp)]
    rw [String.append_empty]
    rfl
  · intro steps i h0 hlt
    simp only [constructCteSql]
    rw [if_neg]
    push_neg
    exact ⟨h0, hlt⟩

/-- Witness for C7: the theorem applied at a concrete two-step split and a
concrete single step. -/
theorem constructCteSql_shape_witness :
    ([(⟨"a", "s1", "SELECT 1"⟩ : Step)] ≠ []) ∧
    (constructCteSql
        ([⟨"a", "s1", "SELECT 1"⟩] ++ [⟨"b", "s2", "SELECT 2"⟩]) none
      = Except.ok
          ("WITH " ++ (cteBindings [⟨"a", "s1", "SELECT 1"⟩]
            ++ finalSegment ⟨"b", "s2", "SELECT 2"⟩))
    ∧ constructCteSql [(⟨"c", "s3", "SELECT 3"⟩ : Step)] none
      = Except.ok ("-- " ++ "s3" ++ "\n" ++ "SELECT 3")
    ∧ (∀ (steps : List Step) (i : Int), 0 ≤ i → i < (steps.length : Int) →
        constructCteSql steps (some i)
          = Except.ok (buildCte (steps.take (i.toNat + 1))))
    ∧ (∀ steps : List Step, constructCteSql steps none
          = Except.ok (buildCte steps))) :=
  ⟨by simp,
   constructCteSql_shape [⟨"a", "s1", "SELECT 1"⟩] ⟨"b", "s2", "SELECT 2"⟩
     ⟨"c", "s3", "SELECT 3"⟩ (by simp)⟩

/-- Witness for C6: the one-step array with cutoff index `-1` satisfies the
hypotheses, and the theorem yields the error result there. -/
theorem constructCteSql_invalid_stepIndex_witness :
    1 ≤ [(⟨"a", "s", "SELECT 1"⟩ : Step)].length ∧
    constructCteSql [⟨"a", "s", "SELECT 1"⟩] (some (-1))
      = Except.error ("Invalid stepIndex: " ++ toString (-1 : Int)) :=
  ⟨by decide,
   constructCteSql_invalid_stepIndex [⟨"a", "s", "SELECT 1"⟩] (-1)
     (by decide) (Or.inl (by decide))⟩

/-- Lifecycle status of an ask-detail job, as reported by the AI adaptor and
stored on a thread response (`AskResultStatus` in `models/adaptor`). -/
inductive AskResultStatus
  | UNDERSTANDING
  | SEARCHING
  | GENERATING
  | FINISHED
  | FAILED
  | STOPPED
deriving DecidableEq, Repr

/-- Utility function of the service: a status is finalized when it is
FAILED, FINISHED or STOPPED. -/
def isFinalized (status : AskResultStatus) : Bool :=
  status == AskResultStatus.FAILED || status == AskResultStatus.FINISHED
    || status == AskResultStatus.STOPPED

/-- Structured detail of a thread response: the ordered SQL steps, plus the
view identifier recorded when the response is synthesized from a view. -/
structure AskDetail where
  steps : List Step
  viewId : Option Nat
deriving DecidableEq, Repr

/-- A thread response row: one question/answer exchange, correlated with the
external AI job through `queryId`. -/
structure ThreadResponse where
  id : Nat
  threadId : Nat
  queryId : String
  question : String
  status : AskResultStatus
  detail : Option AskDetail
  error : Option String
deriving DecidableEq, Repr

/-- Status/response/error triple returned by
`wrenAIAdaptor.getAskDetailResult`. -/
structure AskDetailResult where
  status : AskResultStatus
  response : Option AskDetail
  error : Option String
deriving DecidableEq, Repr

/-- Payload of a `threadResponseRepository.updateOne` write issued by the
background tracker for the response with the given identifier. -/
structure ThreadResponseUpdate where
  id : Nat
  status : AskResultStatus
  detail : Option AskDetail
  error : Option String
deriving DecidableEq, Repr

/-- Mutable state of the `BackgroundTracker`: the task map (a record keyed by
response identifier, modelled as a list of responses whose identifiers are
the keys) and the `runningJobs` in-flight set. -/
structure TrackerState where
  tasks : List ThreadResponse
  runningJobs : Finset Nat
deriving DecidableEq

namespace BackgroundTracker

/-- The per-entry asynchronous unit of work launched by a tick of
`BackgroundTracker.start`, for the entry `tr` of the task map: skip if the
identifier is already running, otherwise mark running, fetch the adaptor
result, skip the write when the status is unchanged, otherwise persist the
new status/detail/error, drop the entry from the task map when the new
status is finalized, and clear the running marker. The adaptor is an
explicit function from query identifier to result; repository writes are
returned as a list of update payloads. Within one tick the entries have
distinct identifiers, so running the units one after the other is a faithful
sequentialization of the concurrently launched units. -/
def pollOne (adaptor : String → AskDetailResult) (st : TrackerState)
    (tr : ThreadResponse) : TrackerState × List ThreadResponseUpdate :=
  if tr.id ∈ st.runningJobs then
    (st, [])
  else
    let running := insert tr.id st.runningJobs
    let result := adaptor tr.queryId
    if tr.status = result.status then
      ({ st with runningJobs := running.erase tr.id }, [])
    else
      let write : ThreadResponseUpdate :=
        ⟨tr.id, result.status, result.response, result.error⟩
      let tasks' :=
        if isFinalized result.status then
          st.tasks.filter (fun t => t.id != tr.id)
        else
          st.tasks
      ({ tasks := tasks', runningJobs := running.erase tr.id }, [write])

/-- One interval callback of `BackgroundTracker.start` over a snapshot list
of entries: run the per-entry units in order, threading the state and
concatenating the repository writes. -/
def runJobs (adaptor : String → AskDetailResult) :
    List ThreadResponse → TrackerState → TrackerState × List ThreadResponseUpdate
  | [], st => (st, [])
  | tr :: rest, st =>
      let r1 := pollOne adaptor st tr
      let r2 := runJobs adaptor rest r1.1
      (r2.1, r1.2 ++ r2.2)

/-- One tick: enumerate the current task-map entries and run their units. -/
def tick (adaptor : String → AskDetailResult) (st : TrackerState) :
    TrackerState × List ThreadResponseUpdate :=
  runJobs adaptor st.tasks st

/-- A run of `n` consecutive ticks, collecting all repository writes. -/
def runTicks (adaptor : String → AskDetailResult) (st : TrackerState) :
    Nat → TrackerState × List ThreadResponseUpdate
  | 0 => (st, [])
  | n + 1 =>
      let r1 := tick adaptor st
      let r2 := runTicks adaptor r1.1 n
      (r2.1, r1.2 ++ r2.2)

/-- `BackgroundTracker.addTask`: store the response in the task map under its
identifier (replacing any entry with the same identifier). -/
def addTask (st : TrackerState) (tr : ThreadResponse) : TrackerState :=
  { st with tasks := st.tasks.filter (fun t => t.id != tr.id) ++ [tr] }

theorem pollOne_runningJobs (adaptor : String → AskDetailResult)
    (st : TrackerState) (tr : ThreadResponse) :
    (pollOne adaptor st tr).1.runningJobs = st.runningJobs := by
  rw [pollOne]
  by_cases h : tr.id ∈ st.runningJobs
  · rw [if_pos h]
  · rw [if_neg h]
    by_cases h2 : tr.status = (adaptor tr.queryId).status
    · rw [if_pos h2]
      exact Finset.erase_insert h
    · rw [if_neg h2]
      exact Finset.erase_insert h

theorem pollOne_skip (adaptor : String → AskDetailResult)
    (st : TrackerState) (tr : ThreadResponse)
    (h : tr.id ∈ st.runningJobs) :
    pollOne adaptor st tr = (st, []) := by
  rw [pollOne, if_pos h]

theorem pollOne_nochange (adaptor : String → AskDetailResult)
    (st : TrackerState) (tr : ThreadResponse)
    (h : tr.id ∉ st.runningJobs)
    (hs : tr.status = (adaptor tr.queryId).status) :
    pollOne adaptor st tr = (st, []) := by
  rw [pollOne, if_neg h, if_pos hs, Finset.erase_insert h]

theorem pollOne_change_nonfinal (adaptor : String → AskDetailResult)
    (st : TrackerState) (tr : ThreadResponse)
    (h : tr.id ∉ st.runningJobs)
    (hs : tr.status ≠ (adaptor tr.queryId).status)
    (hf : isFinalized (adaptor tr.queryId).status = false) :
    pollOne adaptor st tr
      = (st, [⟨tr.id, (adaptor tr.queryId).status,
          (adaptor tr.queryId).response, (adaptor tr.queryId).error⟩]) := by
  rw [pollOne, if_neg h, if_neg hs]
  simp only [hf, if_false, Bool.false_eq_true, Finset.erase_insert h]

theorem pollOne_change_final (adaptor : String → AskDetailResult)
    (st : TrackerState) (tr : ThreadResponse)
    (h : tr.id ∉ st.runningJobs)
    (hs : tr.status ≠ (adaptor tr.queryId).status)
    (hf : isFinalized (adaptor tr.queryId).status = true) :
    pollOne adaptor st tr
      = (⟨st.tasks.filter (fun t => t.id != tr.id), st.runningJobs⟩,
         [⟨tr.id, (adaptor tr.queryId).status,
           (adaptor tr.queryId).response, (adaptor tr.queryId).error⟩]) := by
  rw [pollOne, if_neg h, if_neg hs]
  simp only [hf, if_true, Finset.erase_insert h]

theorem pollOne_tasks_sublist (adaptor : String → AskDetailResult)
    (st : TrackerState) (tr : ThreadResponse) :
    (pollOne adaptor st tr).1.tasks.Sublist st.tasks := by
  rw [pollOne]
  by_cases h : tr.id ∈ st.runningJobs
  · rw [if_pos h]
  · rw [if_neg h]
    by_cases h2 : tr.status = (adaptor tr.queryId).status
    · rw [if_pos h2]
    · rw [if_neg h2]
      by_cases h3 : isFinalized (adaptor tr.queryId).status
      · simp only [h3, if_true]
        exact List.filter_sublist _
      · simp only [h3, if_false, Bool.false_eq_true]
        exact List.Sublist.refl _

theorem pollOne_mem_tasks (adaptor : String → AskDetailResult)
    (st : TrackerState) (tr : ThreadResponse) (t : ThreadResponse)
    (ht : t ∈ st.tasks) (hne : t.id ≠ tr.id) :
    t ∈ (pollOne adaptor st tr).1.tasks := by
  rw [pollOne]
  by_cases h : tr.id ∈ st.runningJobs
  · rw [if_pos h]; exact ht
  · rw [if_neg h]
    by_cases h2 : tr.status = (adaptor tr.queryId).status
    · rw [if_pos h2]; exact ht
    · rw [if_neg h2]
      by_cases h3 : isFinalized (adaptor tr.queryId).status
      · simp only [h3, if_true]
        exact List.mem_filter.mpr ⟨ht, by simpa using hne⟩
      · simp only [h3, if_false, Bool.false_eq_true]
        exact ht

theorem pollOne_writes_id (adaptor : String → AskDetailResult)
    (st : TrackerState) (tr : ThreadResponse) (w : ThreadResponseUpdate)
    (hw : w ∈ (pollOne adaptor st tr).2) : w.id = tr.id := by
  rw [pollOne] at hw
  by_cases h : tr.id ∈ st.runningJobs
  · rw [if_pos h] at hw; simp at hw
  · rw [if_neg h] at hw
    by_cases h2 : tr.status = (adaptor tr.queryId).status
    · rw [if_pos h2] at hw; simp at hw
    · rw [if_neg h2] at hw
      simp only [List.mem_singleton] at hw
      rw [hw]

theorem runJobs_runningJobs (adaptor : String → AskDetailResult) :
    ∀ (l : List ThreadResponse) (st : TrackerState),
      (runJobs adaptor l st).1.runningJobs = st.runningJobs := by
  intro l
  induction l with
  | nil => intro st; rfl
  | cons tr rest ih =>
      intro st
      simp only [runJobs]
      rw [ih, pollOne_runningJobs]

theorem runJobs_tasks_sublist (adaptor : String → AskDetailResult) :
    ∀ (l : List ThreadResponse) (st : TrackerState),
      (runJobs adaptor l st).1.tasks.Sublist st.tasks := by
  intro l
  induction l with
  | nil => intro st; exact List.Sublist.refl _
  | cons tr rest ih =>
      intro st
      simp only [runJobs]
      exact (ih _).trans (pollOne_tasks_sublist adaptor st tr)

theorem runJobs_writes_id (adaptor : String → AskDetailResult) :
    ∀ (l : List ThreadResponse) (st : TrackerState) (w : ThreadResponseUpdate),
      w ∈ (runJobs adaptor l st).2 → ∃ tr ∈ l, w.id = tr.id := by
  intro l
  induction l with
  | nil => intro st w hw; simp [runJobs] at hw
  | cons tr rest ih =>
      intro st w hw
      simp only [runJobs, List.mem_append] at hw
      rcases hw with hw | hw
      · exact ⟨tr, List.mem_cons_self _ _, pollOne_writes_id adaptor st tr w hw⟩
      · obtain ⟨tr', htr', hid⟩ := ih _ w hw
        exact ⟨tr', List.mem_cons_of_mem _ htr', hid⟩

theorem runJobs_mem_preserve (adaptor : String → AskDetailResult)
    (r : ThreadResponse) :
    ∀ (l : List ThreadResponse) (st : TrackerState),
      r ∈ st.tasks → (∀ tr ∈ l, tr.id ≠ r.id) →
      r ∈ (runJobs adaptor l st).1.tasks := by
  intro l
  induction l with
  | nil => intro st h _; exact h
  | cons tr rest ih =>
      intro st h hl
      simp only [runJobs]
      exact ih _
        (pollOne_mem_tasks adaptor st tr r h
          (Ne.symm (hl tr (List.mem_cons_self _ _))))
        (fun tr' h' => hl tr' (List.mem_cons_of_mem _ h'))

theorem runJobs_nofree_writes (adaptor : String → AskDetailResult) (rid : Nat) :
    ∀ (l : List ThreadResponse) (st : TrackerState),
      (∀ tr ∈ l, tr.id ≠ rid) →
      (runJobs adaptor l st).2.filter (fun w => w.id == rid) = [] := by
  intro l st hl
  refine List.filter_eq_nil_iff.mpr ?_
  intro w hw
  obtain ⟨tr, htr, hid⟩ := runJobs_writes_id adaptor l st w hw
  simp only [beq_iff_eq]
  rw [hid]
  exact hl tr htr

theorem runJobs_append (adaptor : String → AskDetailResult) :
    ∀ (l1 l2 : List ThreadResponse) (st : TrackerState),
      runJobs adaptor (l1 ++ l2) st
        = ((runJobs adaptor l2 (runJobs adaptor l1 st).1).1,
           (runJobs adaptor l1 st).2
             ++ (runJobs adaptor l2 (runJobs adaptor l1 st).1).2) := by
  intro l1
  induction l1 with
  | nil => intro l2 st; simp [runJobs]
  | cons tr rest ih =>
      intro l2 st
      simp only [List.cons_append, runJobs, List.append_eq]
      rw [ih]
      simp [List.append_assoc]

theorem runTicks_absent (adaptor : String → AskDetailResult) (rid : Nat) :
    ∀ (n : Nat) (st : TrackerState),
      (∀ t ∈ st.tasks, t.id ≠ rid) →
      (runTicks adaptor st n).2.filter (fun w => w.id == rid) = [] := by
  intro n
  induction n with
  | zero => intro st _; rfl
  | succ n ih =>
      intro st h
      simp only [runTicks, tick, List.filter_append]
      rw [runJobs_nofree_writes adaptor rid st.tasks st h]
      rw [ih _ (fun t ht =>
        h t ((runJobs_tasks_sublist adaptor st.tasks st).subset ht))]
      rfl

theorem runJobs_unchanged_nowrite (adaptor : String → AskDetailResult)
    (r : ThreadResponse) (hadapt : (adaptor r.queryId).status = r.status) :
    ∀ (l : List ThreadResponse) (st : TrackerState),
      r ∈ st.tasks → (∀ t ∈ st.tasks, t.id = r.id → t = r) →
      (∀ tr ∈ l, tr.id = r.id → tr = r) →
      r ∈ (runJobs adaptor l st).1.tasks
      ∧ (∀ t ∈ (runJobs adaptor l st).1.tasks, t.id = r.id → t = r)
      ∧ (runJobs adaptor l st).2.filter (fun w => w.id == r.id) = [] := by
  intro l
  induction l with
  | nil => intro st h1 h2 _; exact ⟨h1, h2, rfl⟩
  | cons tr rest ih =>
      intro st h1 h2 hl
      by_cases hid : tr.id = r.id
      · have htr : tr = r := hl tr (List.mem_cons_self _ _) hid
        have hpoll : pollOne adaptor st tr = (st, []) := by
          rw [htr]
          by_cases hrun : r.id ∈ st.runningJobs
          · exact pollOne_skip adaptor st r hrun
          · exact pollOne_nochange adaptor st r hrun hadapt.symm
        simp only [runJobs, hpoll]
        obtain ⟨a, b, c⟩ :=
          ih st h1 h2 (fun tr' h' => hl tr' (List.mem_cons_of_mem _ h'))
        exact ⟨a, b, by simpa using c⟩
      · have h1' : r ∈ (pollOne adaptor st tr).1.tasks :=
          pollOne_mem_tasks adaptor st tr r h1 (fun he => hid he.symm)
        have h2' : ∀ t ∈ (pollOne adaptor st tr).1.tasks, t.id = r.id → t = r :=
          fun t ht => h2 t ((pollOne_tasks_sublist adaptor st tr).subset ht)
        obtain ⟨a, b, c⟩ :=
          ih _ h1' h2' (fun tr' h' => hl tr' (List.mem_cons_of_mem _ h'))
        refine ⟨a, b, ?_⟩
        simp only [runJobs, List.filter_append, c, List.append_nil]
        refine List.filter_eq_nil_iff.mpr ?_
        intro w hw
        simp only [beq_iff_eq]
        rw [pollOne_writes_id adaptor st tr w hw]
        exact hid

theorem runTicks_unchanged (adaptor : String → AskDetailResult)
    (r : ThreadResponse) (hadapt : (adaptor r.queryId).status = r.status) :
    ∀ (n : Nat) (st : TrackerState),
      r ∈ st.tasks → (∀ t ∈ st.tasks, t.id = r.id → t = r) →
      (runTicks adaptor st n).2.filter (fun w => w.id == r.id) = [] := by
  intro n
  induction n with
  | zero => intro st _ _; rfl
  | succ n ih =>
      intro st h1 h2
      obtain ⟨a, b, c⟩ :=
        runJobs_unchanged_nowrite adaptor r hadapt st.tasks st h1 h2
          (fun tr h' => h2 tr h')
      simp only [runTicks, tick, List.filter_append]
      rw [c, ih _ a b]
      rfl

theorem runJobs_nodup (adaptor : String → AskDetailResult)
    (l : List ThreadResponse) (st : TrackerState)
    (h : (st.tasks.map (fun t => t.id)).Nodup) :
    ((runJobs adaptor l st).1.tasks.map (fun t => t.id)).Nodup :=
  h.sublist ((runJobs_tasks_sublist adaptor l st).map _)

theorem tick_nonfinal (adaptor : String → AskDetailResult)
    (r : ThreadResponse) (res : AskDetailResult)
    (hres : adaptor r.queryId = res) (hne : r.status ≠ res.status)
    (hnf : isFinalized res.status = false) (st : TrackerState)
    (h1 : r ∈ st.tasks) (hnd : (st.tasks.map (fun t => t.id)).Nodup)
    (h3 : r.id ∉ st.runningJobs) :
    (tick adaptor st).2.filter (fun w => w.id == r.id)
        = [⟨r.id, res.status, res.response, res.error⟩]
    ∧ r ∈ (tick adaptor st).1.tasks
    ∧ ((tick adaptor st).1.tasks.map (fun t => t.id)).Nodup
    ∧ r.id ∉ (tick adaptor st).1.runningJobs := by
  obtain ⟨l1, l2, hsplit⟩ := List.append_of_mem h1
  have hnd0 : (st.tasks.map (fun t => t.id)).Nodup := hnd
  rw [hsplit] at hnd
  simp only [List.map_append, List.map_cons, List.nodup_append,
    List.nodup_cons] at hnd
  obtain ⟨hn1, ⟨hrl2, hn2⟩, hdisj⟩ := hnd
  have hl1 : ∀ tr ∈ l1, tr.id ≠ r.id := by
    intro tr htr he
    exact hdisj (List.mem_map_of_mem _ htr)
      (by rw [he]; exact List.mem_cons_self _ _)
  have hl2 : ∀ tr ∈ l2, tr.id ≠ r.id := by
    intro tr htr he
    exact hrl2 (by rw [← he]; exact List.mem_map_of_mem _ htr)
  have epoll : pollOne adaptor (runJobs adaptor l1 st).1 r
      = ((runJobs adaptor l1 st).1,
         [⟨r.id, res.status, res.response, res.error⟩]) := by
    have h3' : r.id ∉ (runJobs adaptor l1 st).1.runningJobs := by
      rw [runJobs_runningJobs]; exact h3
    have hstep := pollOne_change_nonfinal adaptor (runJobs adaptor l1 st).1 r h3'
      (by rw [hres]; exact hne) (by rw [hres]; exact hnf)
    rw [hstep, hres]
  have econs : runJobs adaptor (r :: l2) (runJobs adaptor l1 st).1
      = ((runJobs adaptor l2 (runJobs adaptor l1 st).1).1,
         (⟨r.id, res.status, res.response, res.error⟩ : ThreadResponseUpdate)
           :: (runJobs adaptor l2 (runJobs adaptor l1 st).1).2) := by
    simp only [runJobs, epoll, List.singleton_append]
  have etick : tick adaptor st
      = ((runJobs adaptor l2 (runJobs adaptor l1 st).1).1,
         (runJobs adaptor l1 st).2
           ++ (⟨r.id, res.status, res.response, res.error⟩ : ThreadResponseUpdate)
           :: (runJobs adaptor l2 (runJobs adaptor l1 st).1).2) := by
    rw [tick, hsplit, runJobs_append, econs]
  refine ⟨?_, ?_, ?_, ?_⟩
  · rw [etick]
    simp only [List.filter_append, List.filter_cons]
    rw [runJobs_nofree_writes adaptor r.id l1 st hl1]
    rw [runJobs_nofree_writes adaptor r.id l2 _ hl2]
    simp
  · rw [etick]
    exact runJobs_mem_preserve adaptor r l2 _
      (runJobs_mem_preserve adaptor r l1 st h1 hl1) hl2
  · rw [etick]
    exact hnd0.sublist
      (((runJobs_tasks_sublist adaptor l2 _).trans
        (runJobs_tasks_sublist adaptor l1 st)).map _)
  · rw [etick]
    show r.id ∉ (runJobs adaptor l2 (runJobs adaptor l1 st).1).1.runningJobs
    rw [runJobs_runningJobs, runJobs_runningJobs]
    exact h3

theorem runTicks_nonfinal (adaptor : String → AskDetailResult)
    (r : ThreadResponse) (res : AskDetailResult)
    (hres : adaptor r.queryId = res) (hne : r.status ≠ res.status)
    (hnf : isFinalized res.status = false) :
    ∀ (n : Nat) (st : TrackerState),
      r ∈ st.tasks → (st.tasks.map (fun t => t.id)).Nodup →
      r.id ∉ st.runningJobs →
      (runTicks adaptor st n).2.filter (fun w => w.id == r.id)
        = List.replicate n ⟨r.id, res.status, res.response, res.error⟩ := by
  intro n
  induction n with
  | zero => intro st _ _ _; rfl
  | succ n ih =>
      intro st h1 hnd h3
      obtain ⟨a, b, c, d⟩ := tick_nonfinal adaptor r res hres hne hnf st h1 hnd h3
      simp only [runTicks, List.filter_append]
      rw [a, ih _ b c d]
      rfl

end BackgroundTracker

/-- The well-known placeholder job identifier used for responses synthesized
from a view. -/
def QUERY_ID_PLACEHOLDER : String := "0"

/-- Status of a thread's recommended-question generation
(`RecommendationQuestionStatus` in `models/adaptor`). -/
inductive RecommendationQuestionStatus
  | GENERATING
  | FINISHED
  | FAILED
deriving DecidableEq, Repr

/-- A thread row: a saved conversation, including its recommended-question
generation state. -/
structure Thread where
  id : Nat
  projectId : Nat
  sql : Option String
  summary : Option String
  queryId : Option String
  questionsStatus : Option RecommendationQuestionStatus
  questions : List String
  questionsError : Option String
deriving DecidableEq, Repr

/-- A saved view: its SQL statement and the detail recorded in its serialized
`properties` JSON (the repositories are external collaborators, so the
parsed form of `properties.detail` is modelled directly; an absent or empty
detail is `none`). -/
structure View where
  id : Nat
  statement : String
  propertiesDetail : Option AskDetail
deriving DecidableEq, Repr

/-- Payload of a `threadResponseRepository.createOne` call. -/
structure ThreadResponseCreate where
  threadId : Nat
  queryId : String
  question : Option String
  status : AskResultStatus
  detail : Option AskDetail
deriving DecidableEq, Repr

/-- Input of `createThread` / `createThreadResponse`. -/
structure AskingDetailTaskInput where
  question : Option String
  sql : Option String
  viewId : Option Nat
deriving DecidableEq, Repr

/-- Externally visible calls and writes issued by the service operations. -/
inductive Effect
  | generateAskDetail (question : Option String) (sql : Option String)
  | createThreadRow (projectId : Nat) (sql : Option String)
      (summary : Option String)
  | createThreadResponseRow (row : ThreadResponseCreate)
  | trackerAddTask (responseId : Nat)
  | updateThreadSummary (threadId : Nat) (summary : Option String)
  | generateRecommendationQuestions (previousQuestions : List String)
  | updateThreadRecommendation (threadId : Nat) (queryId : String)
deriving DecidableEq, Repr

/-- Environment of `createThread`: the view repository, the current project,
the job identifier a `generateAskDetail` call would return, and the row
identifiers the repositories would assign. -/
structure ServiceEnv where
  views : Nat → Option View
  currentProjectId : Nat
  generateAskDetailQueryId : String
  nextThreadId : Nat
  nextResponseId : Nat

/-- JavaScript truthiness of the optional numeric `viewId`: an absent value
and the number `0` are both falsy in `if (input.viewId)`. -/
def truthyId : Option Nat → Bool
  | none => false
  | some v => v != 0

/-- Embedding of `createThreadResponseFromView`: the response payload is
built from the view's stored properties, with the placeholder job
identifier, status FINISHED, and the parsed detail extended with the view
identifier (the spread of an absent detail leaves only the view
identifier). -/
def createThreadResponseFromView (input : AskingDetailTaskInput) (view : View)
    (thread : Thread) : ThreadResponseCreate :=
  { threadId := thread.id
    queryId := QUERY_ID_PLACEHOLDER
    question := input.question
    status := AskResultStatus.FINISHED
    detail := some
      { steps :=
          match view.propertiesDetail with
          | some d => d.steps
          | none => []
        viewId := some view.id } }

/-- The thread row created by `createThreadFromView`: SQL from the view's
statement, summary from the question. -/
def threadFromView (env : ServiceEnv) (input : AskingDetailTaskInput)
    (view : View) : Thread :=
  { id := env.nextThreadId
    projectId := env.currentProjectId
    sql := some view.statement
    summary := input.question
    queryId := none
    questionsStatus := none
    questions := []
    questionsError := none }

/-- Embedding of the private `createThreadFromView`: look the view up, fail
if absent, otherwise create the thread row and the FINISHED response row
from the view. No adaptor call and no tracker registration occur on this
path. -/
def createThreadFromView (env : ServiceEnv) (input : AskingDetailTaskInput) :
    Except String (Thread × List Effect) :=
  match input.viewId.bind env.views with
  | none => Except.error "View not found"
  | some view =>
      Except.ok (threadFromView env input view,
        [Effect.createThreadRow env.currentProjectId (some view.statement)
           input.question,
         Effect.createThreadResponseRow
           (createThreadResponseFromView input view
             (threadFromView env input view))])

/-- Embedding of `AskingService.createThread`: with a truthy `viewId` the
thread is built from the view; otherwise the adaptor generates the detail,
the thread and an UNDERSTANDING response are created, and the response is
registered with the background tracker. -/
def createThread (env : ServiceEnv) (input : AskingDetailTaskInput) :
    Except String (Thread × List Effect) :=
  if truthyId input.viewId then
    createThreadFromView env input
  else
    Except.ok
      ({ id := env.nextThreadId
         projectId := env.currentProjectId
         sql := input.sql
         summary := input.question
         queryId := none
         questionsStatus := none
         questions := []
         questionsError := none },
       [Effect.generateAskDetail input.question input.sql,
        Effect.createThreadRow env.currentProjectId input.sql input.question,
        Effect.createThreadResponseRow
          { threadId := env.nextThreadId
            queryId := env.generateAskDetailQueryId
            question := input.question
            status := AskResultStatus.UNDERSTANDING
            detail := none },
        Effect.trackerAddTask env.nextResponseId])

/-- Lodash `isEmpty` on the `updateThread` input object: `none` models the
empty object `{}` (no keys); `some s` models an object carrying a `summary`
key holding `s` (possibly itself undefined), which is non-empty. -/
def isEmptyUpdateInput : Option (Option String) → Bool
  | none => true
  | some _ => false

/-- Embedding of `AskingService.updateThread`: an empty input object is a
validation error (no write); otherwise the thread is updated with a payload
containing only the summary field. -/
def updateThread (threadId : Nat) (input : Option (Option String)) :
    Except String (List Effect) :=
  if isEmptyUpdateInput input then
    Except.error "Update thread input is empty"
  else
    Except.ok [Effect.updateThreadSummary threadId (input.getD none)]

/-- Phase of one per-entry polling unit of a tick, split at the `await`
points of the unit's body. `pending`: the unit has been created by its tick
but its synchronous prelude has not run. `fetching`: the unit passed the
in-flight check, added its identifier to `runningJobs` in the same
synchronous segment, and awaits the adaptor result. `updating`: the adaptor
reported a changed status and the unit awaits the repository update.
`done`: the unit finished and cleared its running marker. `skippedUnit`:
the unit found its identifier in `runningJobs` and returned immediately. -/
inductive JobPhase
  | pending
  | fetching
  | updating
  | done
  | skippedUnit
deriving DecidableEq, Repr

/-- One per-entry polling unit: the response identifier it polls and its
current phase. -/
structure JobUnit where
  respId : Nat
  phase : JobPhase
deriving DecidableEq, Repr

/-- A unit is past the in-flight check and not yet finished. -/
def JobUnit.active (u : JobUnit) : Bool :=
  u.phase == JobPhase.fetching || u.phase == JobPhase.updating

/-- The interleaving state: the units of all (possibly overlapping) ticks
and the shared `runningJobs` set. -/
structure PollSystem where
  units : List JobUnit
  running : Finset Nat
deriving DecidableEq

/-- Small-step interleaving semantics of the per-entry units. Between two
`await` points a JavaScript unit runs atomically, so each step below is one
such synchronous segment of one unit (found by its position `pre ++ u ::
post` in the unit list), or the spawning of a new tick's pending units:
* `skip`: the in-flight check finds the identifier in `runningJobs` and the
  unit returns immediately;
* `enter`: the check finds the identifier absent and the SAME synchronous
  segment adds it to `runningJobs` before the first adaptor call;
* `fetchedUnchanged`: the adaptor result arrives with an unchanged status
  and the unit finishes, clearing its running marker;
* `fetchedChanged`: the adaptor result arrives with a changed status and the
  unit proceeds to the repository update;
* `updated`: the repository update completes and the unit finishes, clearing
  its running marker;
* `spawn`: a later tick launches further units, all initially pending. -/
inductive PollStep : PollSystem → PollSystem → Prop
  | skip (pre post : List JobUnit) (rid : Nat) (run : Finset Nat)
      (h : rid ∈ run) :
      PollStep ⟨pre ++ ⟨rid, JobPhase.pending⟩ :: post, run⟩
               ⟨pre ++ ⟨rid, JobPhase.skippedUnit⟩ :: post, run⟩
  | enter (pre post : List JobUnit) (rid : Nat) (run : Finset Nat)
      (h : rid ∉ run) :
      PollStep ⟨pre ++ ⟨rid, JobPhase.pending⟩ :: post, run⟩
               ⟨pre ++ ⟨rid, JobPhase.fetching⟩ :: post, insert rid run⟩
  | fetchedUnchanged (pre post : List JobUnit) (rid : Nat) (run : Finset Nat) :
      PollStep ⟨pre ++ ⟨rid, JobPhase.fetching⟩ :: post, run⟩
               ⟨pre ++ ⟨rid, JobPhase.done⟩ :: post, run.erase rid⟩
  | fetchedChanged (pre post : List JobUnit) (rid : Nat) (run : Finset Nat) :
      PollStep ⟨pre ++ ⟨rid, JobPhase.fetching⟩ :: post, run⟩
               ⟨pre ++ ⟨rid, JobPhase.updating⟩ :: post, run⟩
  | updated (pre post : List JobUnit) (rid : Nat) (run : Finset Nat) :
      PollStep ⟨pre ++ ⟨rid, JobPhase.updating⟩ :: post, run⟩
               ⟨pre ++ ⟨rid, JobPhase.done⟩ :: post, run.erase rid⟩
  | spawn (units newUnits : List JobUnit) (run : Finset Nat)
      (h : ∀ u ∈ newUnits, u.phase = JobPhase.pending) :
      PollStep ⟨units, run⟩ ⟨units ++ newUnits, run⟩

/-- The mutual-exclusion relation: two units may be simultaneously active
only if they poll different response identifiers. -/
def ExclusiveIds (u v : JobUnit) : Prop :=
  u.active = true → v.active = true → u.respId ≠ v.respId

/-- The guard invariant: every active unit holds its identifier in
`runningJobs`, and no two active units share an identifier. -/
def PollSystem.Inv (s : PollSystem) : Prop :=
  (∀ u ∈ s.units, u.active = true → u.respId ∈ s.running)
  ∧ s.units.Pairwise ExclusiveIds

theorem pairwise_replace_mem (pre post : List JobUnit) (u v : JobUnit)
    (h : (pre ++ u :: post).Pairwise ExclusiveIds)
    (h1 : ∀ x ∈ pre, ExclusiveIds x u → ExclusiveIds x v)
    (h2 : ∀ y ∈ post, ExclusiveIds u y → ExclusiveIds v y) :
    (pre ++ v :: post).Pairwise ExclusiveIds := by
  rw [List.pairwise_append] at h ⊢
  obtain ⟨hp, hc, hx⟩ := h
  rw [List.pairwise_cons] at hc ⊢
  refine ⟨hp, ⟨fun y hy => h2 y hy (hc.1 y hy), hc.2⟩, ?_⟩
  intro x hx' y hy
  rcases List.mem_cons.mp hy with rfl | hy'
  · exact h1 x hx' (hx x hx' _ (List.mem_cons_self _ _))
  · exact hx x hx' y (List.mem_cons_of_mem _ hy')

theorem exclusive_of_inactive_right (u v : JobUnit)
    (hv : v.active = false) : ExclusiveIds u v := by
  intro _ hva
  rw [hv] at hva
  exact absurd hva (by simp)

theorem exclusive_of_inactive_left (u v : JobUnit)
    (hu : u.active = false) : ExclusiveIds u v := by
  intro hua
  rw [hu] at hua
  exact absurd hua (by simp)

theorem pollStep_inv (s t : PollSystem) (hstep : PollStep s t)
    (hinv : s.Inv) : t.Inv := by
  obtain ⟨hrunInv, hpair⟩ := hinv
  cases hstep with
  | skip pre post rid run h =>
      constructor
      · intro u hu ha
        refine hrunInv u ?_ ha
        rcases List.mem_append.mp hu with hu' | hu'
        · exact List.mem_append.mpr (Or.inl hu')
        · rcases List.mem_cons.mp hu' with rfl | hu''
          · exact absurd ha (by simp [JobUnit.active])
          · exact List.mem_append.mpr
              (Or.inr (List.mem_cons_of_mem _ hu''))
      · exact pairwise_replace_mem _ _ _ _ hpair
          (fun x _ _ => exclusive_of_inactive_right x _ (by simp [JobUnit.active]))
          (fun y _ _ => exclusive_of_inactive_left _ y (by simp [JobUnit.active]))
  | enter pre post rid run h =>
      constructor
      · intro u hu ha
        rcases List.mem_append.mp hu with hu' | hu'
        · exact Finset.mem_insert_of_mem
            (hrunInv u (List.mem_append.mpr (Or.inl hu')) ha)
        · rcases List.mem_cons.mp hu' with rfl | hu''
          · exact Finset.mem_insert_self _ _
          · exact Finset.mem_insert_of_mem
              (hrunInv u
                (List.mem_append.mpr (Or.inr (List.mem_cons_of_mem _ hu'')))
                ha)
      · refine pairwise_replace_mem _ _ _ _ hpair ?_ ?_
        · intro x hx _ hxa _ he
          have : x.respId ∈ run :=
            hrunInv x (List.mem_append.mpr (Or.inl hx)) hxa
          rw [he] at this
          exact h this
        · intro y hy _ _ hya he
          have : y.respId ∈ run :=
            hrunInv y
              (List.mem_append.mpr (Or.inr (List.mem_cons_of_mem _ hy))) hya
          rw [← he] at this
          exact h this
  | fetchedUnchanged pre post rid run =>
      constructor
      · intro u hu ha
        have hold : (⟨rid, JobPhase.fetching⟩ : JobUnit).active = true := by
          simp [JobUnit.active]
        have hne : u.respId ≠ rid := by
          rcases List.mem_append.mp hu with hu' | hu'
          · have := (List.pairwise_append.mp hpair).2.2 u hu'
              ⟨rid, JobPhase.fetching⟩ (List.mem_cons_self _ _)
            exact this ha hold
          · rcases List.mem_cons.mp hu' with rfl | hu''
            · exact absurd ha (by simp [JobUnit.active])
            · have hc :=
                (List.pairwise_cons.mp (List.pairwise_append.mp hpair).2.1).1
              exact fun he => (hc u hu'' hold ha) he.symm
        refine Finset.mem_erase.mpr ⟨hne, ?_⟩
        refine hrunInv u ?_ ha
        rcases List.mem_append.mp hu with hu' | hu'
        · exact List.mem_append.mpr (Or.inl hu')
        · rcases List.mem_cons.mp hu' with rfl | hu''
          · exact absurd ha (by simp [JobUnit.active])
          · exact List.mem_append.mpr (Or.inr (List.mem_cons_of_mem _ hu''))
      · exact pairwise_replace_mem _ _ _ _ hpair
          (fun x _ _ => exclusive_of_inactive_right x _ (by simp [JobUnit.active]))
          (fun y _ _ => exclusive_of_inactive_left _ y (by simp [JobUnit.active]))
  | fetchedChanged pre post rid run =>
      constructor
      · intro u hu ha
        rcases List.mem_append.mp hu with hu' | hu'
        · exact hrunInv u (List.mem_append.mpr (Or.inl hu')) ha
        · rcases List.mem_cons.mp hu' with rfl | hu''
          · exact hrunInv ⟨rid, JobPhase.fetching⟩
              (List.mem_append.mpr (Or.inr (List.mem_cons_self _ _)))
              (by simp [JobUnit.active])
          · exact hrunInv u
              (List.mem_append.mpr (Or.inr (List.mem_cons_of_mem _ hu''))) ha
      · refine pairwise_replace_mem _ _ _ _ hpair ?_ ?_
        · intro x _ hxu hxa _
          exact hxu hxa (by simp [JobUnit.active])
        · intro y _ huy _ hya
          exact huy (by simp [JobUnit.active]) hya
  | updated pre post rid run =>
      constructor
      · intro u hu ha
        have hold : (⟨rid, JobPhase.updating⟩ : JobUnit).active = true := by
          simp [JobUnit.active]
        have hne : u.respId ≠ rid := by
          rcases List.mem_append.mp hu with hu' | hu'
          · have := (List.pairwise_append.mp hpair).2.2 u hu'
              ⟨rid, JobPhase.updating⟩ (List.mem_cons_self _ _)
            exact this ha hold
          · rcases List.mem_cons.mp hu' with rfl | hu''
            · exact absurd ha (by simp [JobUnit.active])
            · have hc :=
                (List.pairwise_cons.mp (List.pairwise_append.mp hpair).2.1).1
              exact fun he => (hc u hu'' hold ha) he.symm
        refine Finset.mem_erase.mpr ⟨hne, ?_⟩
        refine hrunInv u ?_ ha
        rcases List.mem_append.mp hu with hu' | hu'
        · exact List.mem_append.mpr (Or.inl hu')
        · rcases List.mem_cons.mp hu' with rfl | hu''
          · exact absurd ha (by simp [JobUnit.active])
          · exact List.mem_append.mpr (Or.inr (List.mem_cons_of_mem _ hu''))
      · exact pairwise_replace_mem _ _ _ _ hpair
          (fun x _ _ => exclusive_of_inactive_right x _ (by simp [JobUnit.active]))
          (fun y _ _ => exclusive_of_inactive_left _ y (by simp [JobUnit.active]))
  | spawn units newUnits run h =>
      constructor
      · intro u hu ha
        rcases List.mem_append.mp hu with hu' | hu'
        · exact hrunInv u hu' ha
        · simp [JobUnit.active, h u hu'] at ha
      · rw [List.pairwise_append]
        refine ⟨hpair, ?_, ?_⟩
        · refine List.pairwise_of_forall_mem_list ?_
          intro x hx y _
          exact exclusive_of_inactive_left x y
            (by simp [JobUnit.active, h x hx])
        · intro x _ y hy
          refine exclusive_of_inactive_right x y ?_
          have := h y hy
          simp [JobUnit.active, this]

/-- C5. In every system reachable from an initial state whose units are all
pending and whose running set is empty — by interleaving the synchronous
segments of per-entry units of arbitrarily many (overlapping) ticks — no two
units polling the same response identifier are simultaneously past the
in-flight check: the active units have pairwise distinct identifiers. The
step relation itself encodes the remaining parts of the claim: a unit whose
identifier is in the running set can only `skip` (return immediately), the
identifier is inserted in the same synchronous segment as the check
(`enter`, with no intervening await before the adaptor call), and it is
removed only when the unit finishes. -/
theorem backgroundTracker_no_concurrent_duplicate_polls
    (s0 s : PollSystem)
    (hpend : ∀ u ∈ s0.units, u.phase = JobPhase.pending)
    (hrun : s0.running = ∅)
    (hreach : Relation.ReflTransGen PollStep s0 s) :
    s.units.Pairwise ExclusiveIds := by
  have hinv0 : s0.Inv := by
    constructor
    · intro u hu ha
      simp [JobUnit.active, hpend u hu] at ha
    · refine List.pairwise_of_forall_mem_list ?_
      intro x hx y _
      refine exclusive_of_inactive_left x y ?_
      simp [JobUnit.active, hpend x hx]
  have hinv : s.Inv := by
    induction hreach with
    | refl => exact hinv0
    | tail _ hstep ih => exact pollStep_inv _ _ hstep ih
  exact hinv.2

/-- Witness for C5: the initial two-unit system (both units pending on the
same identifier, empty running set) is reachable from itself, and the
theorem applies to it. -/
theorem backgroundTracker_no_concurrent_duplicate_polls_witness :
    (∀ u ∈ ([⟨1, JobPhase.pending⟩, ⟨1, JobPhase.pending⟩] : List JobUnit),
        u.phase = JobPhase.pending)
    ∧ (([⟨1, JobPhase.pending⟩, ⟨1, JobPhase.pending⟩] : List JobUnit)).Pairwise
        ExclusiveIds :=
  ⟨by decide,
   backgroundTracker_no_concurrent_duplicate_polls
     ⟨[⟨1, JobPhase.pending⟩, ⟨1, JobPhase.pending⟩], ∅⟩
     ⟨[⟨1, JobPhase.pending⟩, ⟨1, JobPhase.pending⟩], ∅⟩
     (by decide) rfl Relation.ReflTransGen.refl⟩

/-- C2. A poll that observes the adaptor status FINISHED for a tracked
response (the response is in the task map, its identifier is not already
running, and FINISHED differs from its cached status) issues exactly one
repository update, carrying the FINISHED status together with the adaptor's
detail and error payloads; the entry is removed from the task map, and on
each of the following ticks the tracker issues no further write for that
identifier. -/
theorem backgroundTracker_finished_persisted_once
    (adaptor : String → AskDetailResult) (st : TrackerState)
    (r : ThreadResponse) (n : Nat)
    (h0 : r ∈ st.tasks) (h1 : r.id ∉ st.runningJobs)
    (h2 : (adaptor r.queryId).status = AskResultStatus.FINISHED)
    (h3 : r.status ≠ AskResultStatus.FINISHED) :
    (BackgroundTracker.pollOne adaptor st r).2
        = [⟨r.id, AskResultStatus.FINISHED,
            (adaptor r.queryId).response, (adaptor r.queryId).error⟩]
    ∧ (∀ t ∈ (BackgroundTracker.pollOne adaptor st r).1.tasks, t.id ≠ r.id)
    ∧ ((BackgroundTracker.runTicks adaptor
          (BackgroundTracker.pollOne adaptor st r).1 n).2).filter
        (fun w => w.id == r.id) = [] := by
  have hs : r.status ≠ (adaptor r.queryId).status := by rw [h2]; exact h3
  have hf : isFinalized (adaptor r.queryId).status = true := by rw [h2]; rfl
  have epoll := BackgroundTracker.pollOne_change_final adaptor st r h1 hs hf
  have habs : ∀ t ∈ (BackgroundTracker.pollOne adaptor st r).1.tasks,
      t.id ≠ r.id := by
    rw [epoll]
    intro t ht
    have hmem := List.mem_filter.mp ht
    simpa using hmem.2
  refine ⟨?_, habs, BackgroundTracker.runTicks_absent adaptor r.id n _ habs⟩
  rw [epoll, h2]

/-- Witness for C2: a concrete tracker holding one UNDERSTANDING response
whose adaptor reports FINISHED. -/
theorem backgroundTracker_finished_persisted_once_witness :
    ((⟨1, 1, "q", "who", AskResultStatus.UNDERSTANDING, none, none⟩ :
        ThreadResponse)
      ∈ ([⟨1, 1, "q", "who", AskResultStatus.UNDERSTANDING, none, none⟩] :
        List ThreadResponse))
    ∧ ((BackgroundTracker.pollOne
          (fun _ => ⟨AskResultStatus.FINISHED, none, none⟩)
          ⟨[⟨1, 1, "q", "who", AskResultStatus.UNDERSTANDING, none, none⟩], ∅⟩
          ⟨1, 1, "q", "who", AskResultStatus.UNDERSTANDING, none, none⟩).2
        = [⟨1, AskResultStatus.FINISHED, none, none⟩]
      ∧ (∀ t ∈ (BackgroundTracker.pollOne
            (fun _ => ⟨AskResultStatus.FINISHED, none, none⟩)
            ⟨[⟨1, 1, "q", "who", AskResultStatus.UNDERSTANDING, none, none⟩], ∅⟩
            ⟨1, 1, "q", "who", AskResultStatus.UNDERSTANDING, none, none⟩).1.tasks,
          t.id ≠ 1)
      ∧ ((BackgroundTracker.runTicks
            (fun _ => ⟨AskResultStatus.FINISHED, none, none⟩)
            (BackgroundTracker.pollOne
              (fun _ => ⟨AskResultStatus.FINISHED, none, none⟩)
              ⟨[⟨1, 1, "q", "who", AskResultStatus.UNDERSTANDING, none, none⟩], ∅⟩
              ⟨1, 1, "q", "who", AskResultStatus.UNDERSTANDING, none, none⟩).1
            2).2).filter (fun w => w.id == 1) = []) :=
  ⟨by decide,
   backgroundTracker_finished_persisted_once
     (fun _ => ⟨AskResultStatus.FINISHED, none, none⟩)
     ⟨[⟨1, 1, "q", "who", AskResultStatus.UNDERSTANDING, none, none⟩], ∅⟩
     ⟨1, 1, "q", "who", AskResultStatus.UNDERSTANDING, none, none⟩
     2 (by decide) (by decide) rfl (by decide)⟩

/-- C3. A response registered with the tracker (it is in the task map, which
holds at most one record per identifier) whose adaptor status always equals
its registered status is never written to the repository: across any number
of ticks, the tracker issues no update carrying its identifier. -/
theorem backgroundTracker_unchanged_status_no_write
    (adaptor : String → AskDetailResult) (st : TrackerState)
    (r : ThreadResponse) (n : Nat)
    (h1 : r ∈ st.tasks) (h2 : ∀ t ∈ st.tasks, t.id = r.id → t = r)
    (h3 : (adaptor r.queryId).status = r.status) :
    ((BackgroundTracker.runTicks adaptor st n).2).filter
      (fun w => w.id == r.id) = [] :=
  BackgroundTracker.runTicks_unchanged adaptor r h3 n st h1 h2

/-- Witness for C3: a concrete tracker holding one UNDERSTANDING response
whose adaptor keeps reporting UNDERSTANDING; three ticks write nothing. -/
theorem backgroundTracker_unchanged_status_no_write_witness :
    ((⟨1, 1, "q", "who", AskResultStatus.UNDERSTANDING, none, none⟩ :
        ThreadResponse)
      ∈ ([⟨1, 1, "q", "who", AskResultStatus.UNDERSTANDING, none, none⟩] :
        List ThreadResponse))
    ∧ ((BackgroundTracker.runTicks
          (fun _ => ⟨AskResultStatus.UNDERSTANDING, none, none⟩)
          ⟨[⟨1, 1, "q", "who", AskResultStatus.UNDERSTANDING, none, none⟩], ∅⟩
          3).2).filter (fun w => w.id == 1) = [] :=
  ⟨by decide,
   backgroundTracker_unchanged_status_no_write
     (fun _ => ⟨AskResultStatus.UNDERSTANDING, none, none⟩)
     ⟨[⟨1, 1, "q", "who", AskResultStatus.UNDERSTANDING, none, none⟩], ∅⟩
     ⟨1, 1, "q", "who", AskResultStatus.UNDERSTANDING, none, none⟩
     3 (by decide) (by decide) rfl⟩

/-- C4. When a poll persists a status change to a non-finalized status, the
whole tracker state — in particular the cached record in the task map, still
holding the old status — is left unchanged (first conjunct: the poll returns
the state unmodified together with the single update). Consequently, as long
as the adaptor keeps reporting that same non-finalized status, every tick
issues another repository write of the same status, detail and error (second
conjunct: `n` ticks produce exactly `n` identical updates for the
identifier). -/
theorem backgroundTracker_nonfinal_repeated_write
    (adaptor : String → AskDetailResult) (st : TrackerState)
    (r : ThreadResponse) (res : AskDetailResult) (n : Nat)
    (h1 : r ∈ st.tasks) (h2 : (st.tasks.map (fun t => t.id)).Nodup)
    (h3 : r.id ∉ st.runningJobs) (hres : adaptor r.queryId = res)
    (hne : r.status ≠ res.status) (hnf : isFinalized res.status = false) :
    BackgroundTracker.pollOne adaptor st r
        = (st, [⟨r.id, res.status, res.response, res.error⟩])
    ∧ ((BackgroundTracker.runTicks adaptor st n).2).filter
        (fun w => w.id == r.id)
        = List.replicate n ⟨r.id, res.status, res.response, res.error⟩ := by
  constructor
  · have hstep := BackgroundTracker.pollOne_change_nonfinal adaptor st r h3
      (by rw [hres]; exact hne) (by rw [hres]; exact hnf)
    rw [hstep, hres]
  · exact BackgroundTracker.runTicks_nonfinal adaptor r res hres hne hnf n st
      h1 h2 h3

/-- Witness for C4: a concrete tracker holding one UNDERSTANDING response
whose adaptor keeps reporting SEARCHING; each of two ticks repeats the same
write, and the poll leaves the state unchanged. -/
theorem backgroundTracker_nonfinal_repeated_write_witness :
    ((⟨1, 1, "q", "who", AskResultStatus.UNDERSTANDING, none, none⟩ :
        ThreadResponse)
      ∈ ([⟨1, 1, "q", "who", AskResultStatus.UNDERSTANDING, none, none⟩] :
        List ThreadResponse))
    ∧ (BackgroundTracker.pollOne
          (fun _ => ⟨AskResultStatus.SEARCHING, none, none⟩)
          ⟨[⟨1, 1, "q", "who", AskResultStatus.UNDERSTANDING, none, none⟩], ∅⟩
          ⟨1, 1, "q", "who", AskResultStatus.UNDERSTANDING, none, none⟩
        = (⟨[⟨1, 1, "q", "who", AskResultStatus.UNDERSTANDING, none, none⟩], ∅⟩,
           [⟨1, AskResultStatus.SEARCHING, none, none⟩])
      ∧ ((BackgroundTracker.runTicks
            (fun _ => ⟨AskResultStatus.SEARCHING, none, none⟩)
            ⟨[⟨1, 1, "q", "who", AskResultStatus.UNDERSTANDING, none, none⟩], ∅⟩
            2).2).filter (fun w => w.id == 1)
          = List.replicate 2 ⟨1, AskResultStatus.SEARCHING, none, none⟩) :=
  ⟨by decide,
   backgroundTracker_nonfinal_repeated_write
     (fun _ => ⟨AskResultStatus.SEARCHING, none, none⟩)
     ⟨[⟨1, 1, "q", "who", AskResultStatus.UNDERSTANDING, none, none⟩], ∅⟩
     ⟨1, 1, "q", "who", AskResultStatus.UNDERSTANDING, none, none⟩
     ⟨AskResultStatus.SEARCHING, none, none⟩ 2
     (by decide) (by decide) (by decide) rfl (by decide) rfl⟩

/-- C8 (counterexample). With `viewId = 0` and a view stored under
identifier 0, the claim requires no adaptor call and a FINISHED response
with the placeholder job identifier; but `if (input.viewId)` is falsy at the
number 0, so `createThread` takes the adaptor path: the trace opens with the
`generateAskDetail` adaptor call and the created response has status
UNDERSTANDING and the adaptor's job identifier. -/
theorem createThread_viewId_zero_calls_adaptor :
    createThread
      ⟨fun i => if i = 0 then some ⟨0, "SELECT 1", none⟩ else none,
       7, "jq", 3, 4⟩
      ⟨some "q", none, some 0⟩
      = Except.ok
        (⟨3, 7, none, some "q", none, none, [], none⟩,
         [Effect.generateAskDetail (some "q") none,
          Effect.createThreadRow 7 none (some "q"),
          Effect.createThreadResponseRow
            ⟨3, "jq", some "q", AskResultStatus.UNDERSTANDING, none⟩,
          Effect.trackerAddTask 4]) := rfl

/-- C8 (amended: a `viewId` of `0` is falsy in the guard `if
(input.viewId)`, so only nonzero view identifiers take the view path). For
every input whose `viewId` is a nonzero identifier of an existing view,
`createThread` performs no call to the AI adaptor and creates exactly one
thread response, whose status is FINISHED and whose job identifier is the
placeholder `'0'`. -/
theorem createThread_from_view_no_adaptor (env : ServiceEnv)
    (input : AskingDetailTaskInput) (vid : Nat) (view : View)
    (hvid : input.viewId = some vid) (h0 : vid ≠ 0)
    (hview : env.views vid = some view) :
    createThread env input
      = Except.ok (threadFromView env input view,
          [Effect.createThreadRow env.currentProjectId (some view.statement)
             input.question,
           Effect.createThreadResponseRow
             (createThreadResponseFromView input view
               (threadFromView env input view))])
    ∧ (createThreadResponseFromView input view
        (threadFromView env input view)).status = AskResultStatus.FINISHED
    ∧ (createThreadResponseFromView input view
        (threadFromView env input view)).queryId = QUERY_ID_PLACEHOLDER
    ∧ ∀ q s, Effect.generateAskDetail q s
        ∉ [Effect.createThreadRow env.currentProjectId (some view.statement)
             input.question,
           Effect.createThreadResponseRow
             (createThreadResponseFromView input view
               (threadFromView env input view))] := by
  refine ⟨?_, rfl, rfl, ?_⟩
  · have ht : truthyId input.viewId = true := by
      rw [hvid]
      simp [truthyId, h0]
    rw [createThread, if_pos ht, createThreadFromView, hvid,
      Option.some_bind, hview]
  · intro q s
    simp

/-- Witness data for C8: a view stored under identifier 1 and an input
naming it. -/
def viewW : View := ⟨1, "SELECT 1", none⟩

def envW : ServiceEnv := ⟨fun i => if i = 1 then some viewW else none, 7, "jq", 3, 4⟩

def inputW : AskingDetailTaskInput := ⟨some "q", none, some 1⟩

/-- Witness for C8 (amended): the theorem applied at the concrete
environment and input. -/
theorem createThread_from_view_no_adaptor_witness :
    (inputW.viewId = some 1) ∧ ((1 : Nat) ≠ 0) ∧ (envW.views 1 = some viewW)
    ∧ (createThread envW inputW
        = Except.ok (threadFromView envW inputW viewW,
            [Effect.createThreadRow envW.currentProjectId
               (some viewW.statement) inputW.question,
             Effect.createThreadResponseRow
               (createThreadResponseFromView inputW viewW
                 (threadFromView envW inputW viewW))])
      ∧ (createThreadResponseFromView inputW viewW
          (threadFromView envW inputW viewW)).status = AskResultStatus.FINISHED
      ∧ (createThreadResponseFromView inputW viewW
          (threadFromView envW inputW viewW)).queryId = QUERY_ID_PLACEHOLDER
      ∧ ∀ q s, Effect.generateAskDetail q s
          ∉ [Effect.createThreadRow envW.currentProjectId
               (some viewW.statement) inputW.question,
             Effect.createThreadResponseRow
               (createThreadResponseFromView inputW viewW
                 (threadFromView envW inputW viewW))]) :=
  ⟨rfl, by decide, rfl,
   createThread_from_view_no_adaptor envW inputW 1 viewW rfl (by decide) rfl⟩

/-- C9. `updateThread` with an empty input object reports a validation error
and performs no repository write (the error carries no effects); with a
non-empty input it issues exactly one update whose payload contains only the
summary field. -/
theorem updateThread_empty_error_summary_only (threadId : Nat) :
    updateThread threadId none = Except.error "Update thread input is empty"
    ∧ ∀ s : Option String,
        updateThread threadId (some s)
          = Except.ok [Effect.updateThreadSummary threadId s] :=
  ⟨rfl, fun _ => rfl⟩

/-- Descending sort by identifier, the embedding of
`.sort((a, b) => b.id - a.id)` on thread responses, written as a structural
insertion sort. -/
def insertDescById (tr : ThreadResponse) :
    List ThreadResponse → List ThreadResponse
  | [] => [tr]
  | t :: rest =>
      if t.id ≤ tr.id then tr :: t :: rest else t :: insertDescById tr rest

def sortDescById : List ThreadResponse → List ThreadResponse
  | [] => []
  | t :: rest => insertDescById t (sortDescById rest)

/-- Task map of the dedicated recommendation tracker, keyed by thread
identifier. -/
structure RecommendationTrackerState where
  tasks : List Thread
deriving DecidableEq, Repr

/-- Modelled from the spec: the dedicated
`ThreadRecommendQuestionBackgroundTracker` is imported from
`../backgrounds`, which is not among the included sources. Per the spec the
operation "no-ops (logs and returns) if a recommendation job for this
thread is already tracked by the dedicated recommendation tracker", so
`isExist` reports whether a job for the given thread — keyed by its
identifier — is tracked. -/
def RecommendationTrackerState.isExist (st : RecommendationTrackerState)
    (t : Thread) : Bool :=
  st.tasks.any (fun u => u.id == t.id)

/-- Modelled from the spec: registration of the updated thread with the
recommendation tracker, keyed by thread identifier. -/
def RecommendationTrackerState.addTask (st : RecommendationTrackerState)
    (t : Thread) : RecommendationTrackerState :=
  ⟨st.tasks.filter (fun u => u.id != t.id) ++ [t]⟩

/-- Environment of `generateThreadRecommendationQuestions`: the thread
repository, the per-thread response lists, the recommendation tracker state,
and the job identifier a `generateRecommendationQuestions` call would
return. -/
structure RecGenEnv where
  threads : Nat → Option Thread
  responsesFor : Nat → List ThreadResponse
  recTracker : RecommendationTrackerState
  recQueryId : String

/-- Embedding of `AskingService.generateThreadRecommendationQuestions`:
fail if the thread is missing; no-op if a recommendation job for the thread
is already tracked; otherwise take the questions of the five most recent
responses (descending identifier), call the adaptor, reset the thread's
recommendation state to GENERATING with the new job identifier, and register
the updated thread with the recommendation tracker. The returned environment
carries the updated thread row and tracker state. -/
def generateThreadRecommendationQuestions (env : RecGenEnv) (threadId : Nat) :
    Except String (RecGenEnv × List Effect) :=
  match env.threads threadId with
  | none => Except.error ("Thread " ++ toString threadId ++ " not found")
  | some thread =>
      if env.recTracker.isExist thread then
        Except.ok (env, [])
      else
        let questions :=
          ((sortDescById (env.responsesFor threadId)).take 5).map
            (fun tr => tr.question)
        let updatedThread : Thread :=
          { thread with
            queryId := some env.recQueryId
            questionsStatus := some RecommendationQuestionStatus.GENERATING
            questions := []
            questionsError := none }
        Except.ok
          ({ env with
             threads := fun i =>
               if i = threadId then some updatedThread else env.threads i
             recTracker := env.recTracker.addTask updatedThread },
           [Effect.generateRecommendationQuestions questions,
            Effect.updateThreadRecommendation threadId env.recQueryId])

/-- Number of `generateRecommendationQuestions` adaptor calls in a trace. -/
def countRecommendationCalls (l : List Effect) : Nat :=
  (l.filter (fun e =>
    match e with
    | Effect.generateRecommendationQuestions _ => true
    | _ => false)).length

/-- C10. For an existing thread with no tracked recommendation job, the
first call performs exactly one adaptor call, and a second call made while
the first call's job is still tracked is a no-op: it returns with no adaptor
call and no repository write (empty effect trace, environment unchanged), so
the two calls together perform exactly one adaptor call. -/
theorem generateThreadRecommendationQuestions_second_call_noop
    (env : RecGenEnv) (threadId : Nat) (thread : Thread)
    (hfound : env.threads threadId = some thread)
    (hnew : env.recTracker.isExist thread = false) :
    ∃ env1 fx1,
      generateThreadRecommendationQuestions env threadId
          = Except.ok (env1, fx1)
      ∧ countRecommendationCalls fx1 = 1
      ∧ generateThreadRecommendationQuestions env1 threadId
          = Except.ok (env1, [])
      ∧ countRecommendationCalls (fx1 ++ []) = 1 := by
  rw [generateThreadRecommendationQuestions, hfound]
  simp only [hnew, Bool.false_eq_true, if_false]
  refine ⟨_, _, rfl, rfl, ?_, rfl⟩
  rw [generateThreadRecommendationQuestions]
  simp [RecommendationTrackerState.isExist, RecommendationTrackerState.addTask]

/-- Witness for C10: a concrete environment holding thread 5 with an empty
recommendation tracker. -/
theorem generateThreadRecommendationQuestions_second_call_noop_witness :
    ((fun i => if i = 5
        then some (⟨5, 1, none, none, none, none, [], none⟩ : Thread)
        else none) 5
      = some (⟨5, 1, none, none, none, none, [], none⟩ : Thread))
    ∧ (RecommendationTrackerState.isExist ⟨[]⟩
        ⟨5, 1, none, none, none, none, [], none⟩ = false)
    ∧ ∃ env1 fx1,
        generateThreadRecommendationQuestions
            ⟨fun i => if i = 5
                then some ⟨5, 1, none, none, none, none, [], none⟩
                else none,
             fun _ => [], ⟨[]⟩, "rq"⟩ 5
          = Except.ok (env1, fx1)
        ∧ countRecommendationCalls fx1 = 1
        ∧ generateThreadRecommendationQuestions env1 5
          = Except.ok (env1, [])
        ∧ countRecommendationCalls (fx1 ++ []) = 1 :=
  ⟨rfl, rfl,
   generateThreadRecommendationQuestions_second_call_noop
     ⟨fun i => if i = 5
         then some ⟨5, 1, none, none, none, none, [], none⟩
         else none,
      fun _ => [], ⟨[]⟩, "rq"⟩ 5
     ⟨5, 1, none, none, none, none, [], none⟩ rfl rfl⟩
